import Mathlib

/-!
Verification of the generic segmenter muxer (libavformat/segment.c).

The development below is a shallow embedding of the segmenter: the time-list
validation loop (parse_times), the per-packet segment boundary decision
(seg_write_packet), the segment lifecycle operations (segment_start and
segment_end) and the manifest writing with rotation.  Machine int64 values
are modelled as Int (no claim here probes overflow), doubles produced by
av_q2d and the start/end second computations are modelled as exact rationals,
and the external I/O results (trailer emission, list-file reopening) are
passed as explicit integer return codes.
-/

namespace Seg

set_option maxRecDepth 8192

/-- Media type of a stream; only the video/non-video distinction matters to
the segmenter. -/
inductive CodecType where
  | video
  | audio
  | data
deriving DecidableEq, Repr

/-- An AVRational time base, numerator and denominator. -/
structure AVRational where
  num : Int
  den : Int
deriving DecidableEq, Repr

/-- The microsecond time base AV_TIME_BASE_Q, that is 1/1000000. -/
def AV_TIME_BASE_Q : AVRational := ⟨1, 1000000⟩

/-- Exact rational value of a time base, the idealization of av_q2d. -/
def AVRational.toRat (r : AVRational) : ℚ := (r.num : ℚ) / (r.den : ℚ)

/-- Sentinel value of a missing presentation timestamp, INT64_MIN. -/
def AV_NOPTS_VALUE : Int := -(2 ^ 63)

/-- Largest int64 value; the decision engine uses it as the target once an
explicit cut-point list is exhausted. -/
def INT64_MAX : Int := 2 ^ 63 - 1

/-- Exact model of av_compare_ts: compares ts_a taken in time base tb_a with
ts_b taken in time base tb_b, returning -1, 0 or 1. -/
def av_compare_ts (ts_a : Int) (tb_a : AVRational) (ts_b : Int) (tb_b : AVRational) : Int :=
  if ts_a * tb_a.num * tb_b.den < ts_b * tb_b.num * tb_a.den then -1
  else if ts_b * tb_b.num * tb_a.den < ts_a * tb_a.num * tb_b.den then 1
  else 0

/-- A media stream: its codec type and its time base. -/
structure AVStream where
  codec_type : CodecType
  time_base : AVRational
deriving DecidableEq, Repr

/-- A packet: owning stream index, presentation timestamp, duration and the
AV_PKT_FLAG_KEY flag. -/
structure AVPacket where
  stream_index : Nat
  pts : Int
  duration : Int
  key : Bool
deriving DecidableEq, Repr

/-- Outcome of parse_times.  The code returns AVERROR(EINVAL) in both failure
cases; the accompanying log line distinguishes them and, for the monotonicity
failure, reports the two offending values (times i and times (i-1)), which the
error value records here. -/
inductive TimesError where
  | invalidSpec : TimesError
  | notMonotone (cur prev : Int) : TimesError
deriving DecidableEq, Repr

/-- Loop of parse_times over the comma-separated entries.  An entry is the
result of av_parse_time on one token: some value on success, none on failure.
The previously parsed value is carried to perform the monotonicity check
times (i-1) > times i exactly as the code does. -/
def parse_times_loop : Option Int → List (Option Int) → List Int → Except TimesError (List Int)
  | _, [], acc => Except.ok acc.reverse
  | _, none :: _, _ => Except.error TimesError.invalidSpec
  | none, some t :: rest, acc => parse_times_loop (some t) rest (t :: acc)
  | some pv, some t :: rest, acc =>
    if pv > t then Except.error (TimesError.notMonotone t pv)
    else parse_times_loop (some t) rest (t :: acc)

/-- Model of parse_times: validates the entry list and returns the parsed
cut points, or the first error encountered. -/
def parse_times (entries : List (Option Int)) : Except TimesError (List Int) :=
  parse_times_loop none entries []

/-- A list of int64 values is non-decreasing (each entry at least the
previous one). -/
def nonDecr : List Int → Bool
  | [] => true
  | [_] => true
  | a :: b :: rest => decide (a ≤ b) && nonDecr (b :: rest)

/-- The segmenter options after seg_write_header has parsed them: wrap
modulus, fixed interval in microseconds, explicit cut-point list (empty when
the segment_times option is absent; parse_times always yields at least one
entry when it is present), tolerance delta, whether a list file is configured
and the list rotation size. -/
structure Config where
  wrap : Int
  time : Int
  times : List Int
  delta : Int
  list : Bool
  list_size : Int
deriving DecidableEq, Repr

/-- One manifest record: the index substituted into the segment filename and
the start and end times in seconds. -/
structure SegRecord where
  name : Int
  t0 : ℚ
  t1 : ℚ
deriving DecidableEq, Repr

/-- Mutable state of the segmenter (the SegmentContext fields that evolve),
together with observables: curName is the index formatted into the filename
of the currently open segment, manifest is the current content of the list
file (reflecting truncations), started counts segments opened so far and
ended counts segments completed so far. -/
structure SegState where
  number : Int
  has_video : Nat
  start_time : ℚ
  end_time : ℚ
  curName : Int
  manifest : List SegRecord
  started : Nat
  ended : Nat
deriving DecidableEq, Repr

/-- Model of segment_start (success path): apply the wrap modulus to the
counter when nonzero, format the next filename from the counter and
post-increment it, then open the sink and write the header. -/
def segment_start (cfg : Config) (s : SegState) : SegState :=
  let n := if cfg.wrap ≠ 0 then s.number % cfg.wrap else s.number
  { s with number := n + 1, curName := n, started := s.started + 1 }

/-- Model of segment_end: trailer_ret is the result of the inner writer
trailer entry point (0 when the entry point is absent or succeeds),
reopen_ret the result of reopening the list file on rotation.  Follows the
code: the trailer result seeds ret; when a list file is configured and the
counter is a multiple of list_size the list file is closed and reopened in
truncate mode, the reopen result overwriting ret and a failure jumping to
cleanup; otherwise the record for the finished segment is appended.  The
sink close and private-context release happen in every branch (ended is
incremented). -/
def segment_end (cfg : Config) (s : SegState) (trailer_ret : Int) (reopen_ret : Int) :
    SegState × Int :=
  let entry0 : SegRecord := ⟨s.curName, s.start_time, s.end_time⟩
  if cfg.list then
    if cfg.list_size ≠ 0 ∧ s.number % cfg.list_size = 0 then
      if reopen_ret < 0 then
        ({ s with ended := s.ended + 1 }, reopen_ret)
      else
        ({ s with manifest := [entry0], ended := s.ended + 1 }, reopen_ret)
    else
      ({ s with manifest := s.manifest ++ [entry0], ended := s.ended + 1 }, trailer_ret)
  else
    ({ s with ended := s.ended + 1 }, trailer_ret)

/-- Model of seg_write_header (success path): the counter starts at 0, the
first filename is formatted from it without wrap and the counter is
post-incremented; has_video counts the video streams. -/
def seg_write_header (streams : List AVStream) : SegState :=
  { number := 1
    has_video := streams.countP (fun st => st.codec_type == CodecType.video)
    start_time := 0
    end_time := 0
    curName := 0
    manifest := []
    started := 1
    ended := 0 }

/-- The target cut point for the current packet, lines 276-280 of the code:
the counter indexes the explicit list when one is configured, INT64_MAX once
it is exhausted, and the fixed interval scales the counter otherwise. -/
def end_pts (cfg : Config) (s : SegState) : Int :=
  if cfg.times ≠ [] then
    if s.number ≤ (cfg.times.length : Int) then cfg.times.getD (s.number - 1).toNat 0
    else INT64_MAX
  else cfg.time * s.number

/-- The stream a packet belongs to (index into the borrowed stream table). -/
def pktStream (streams : List AVStream) (pkt : AVPacket) : AVStream :=
  streams.getD pkt.stream_index ⟨CodecType.data, ⟨1, 1⟩⟩

/-- The cut condition of seg_write_packet, lines 283-285 of the code. -/
def cutTrigger (cfg : Config) (s : SegState) (st : AVStream) (pkt : AVPacket) : Bool :=
  ((s.has_video != 0 && st.codec_type == CodecType.video) || s.has_video == 0)
    && decide (0 ≤ av_compare_ts pkt.pts st.time_base (end_pts cfg s - cfg.delta) AV_TIME_BASE_Q)
    && pkt.key

/-- Model of seg_write_packet (success path): on a cut, end the current
segment, start the next and record its start time from the cutting packet;
otherwise a packet with a valid timestamp extends the running end time.  The
packet is then handed to the active segment writer. -/
def seg_write_packet (cfg : Config) (streams : List AVStream) (s : SegState)
    (pkt : AVPacket) : SegState :=
  if cutTrigger cfg s (pktStream streams pkt) pkt then
    let s2 := segment_start cfg (segment_end cfg s 0 0).1
    { s2 with start_time := (pkt.pts : ℚ) * (pktStream streams pkt).time_base.toRat }
  else if pkt.pts ≠ AV_NOPTS_VALUE then
    let e2 := ((pkt.pts + pkt.duration : Int) : ℚ) * (pktStream streams pkt).time_base.toRat
    { s with end_time := max s.end_time e2 }
  else
    s

/-- Ordinal of the segment into which seg_write_packet writes the packet:
the write happens after the possible cut, so it is the segment active once
the branch has run. -/
def writeTarget (cfg : Config) (streams : List AVStream) (s : SegState) (pkt : AVPacket) : Nat :=
  (seg_write_packet cfg streams s pkt).started

/-- Model of seg_write_trailer (success path of the surrounding cleanup):
one final segment_end. -/
def seg_write_trailer (cfg : Config) (s : SegState) : SegState × Int :=
  segment_end cfg s 0 0

/-- State after the header and a sequence of packets. -/
def runPackets (cfg : Config) (streams : List AVStream) (pkts : List AVPacket) : SegState :=
  pkts.foldl (seg_write_packet cfg streams) (seg_write_header streams)

/-- A whole run: header, packets, trailer. -/
def run (cfg : Config) (streams : List AVStream) (pkts : List AVPacket) : SegState :=
  (seg_write_trailer cfg (runPackets cfg streams pkts)).1

/-- A video stream ticking in seconds. -/
def vStream : AVStream := ⟨CodecType.video, ⟨1, 1⟩⟩

/-- An audio stream with a millisecond time base. -/
def aStream : AVStream := ⟨CodecType.audio, ⟨1, 1000⟩⟩

/-- A keyframe packet on stream 0 at second t, one second long. -/
def keyPkt (t : Int) : AVPacket := ⟨0, t, 1, true⟩

/-- A non-key packet on stream 0 at second t, one second long. -/
def plainPkt (t : Int) : AVPacket := ⟨0, t, 1, false⟩

/-- Fixed-interval configuration, 2 second segments, manifest of size 2. -/
def cfg6 : Config := ⟨0, 2000000, [], 0, true, 2⟩

/-- Packet schedule for the manifest-rotation run: keyframes every 2 seconds,
non-key packets on the odd seconds. -/
def pkts6 : List AVPacket :=
  [plainPkt 1, keyPkt 2, plainPkt 3, keyPkt 4, plainPkt 5, keyPkt 6, plainPkt 7,
    keyPkt 8, plainPkt 9]

/-- Explicit cut points at 1s and 2s with wrap 2, no manifest. -/
def cfg3 : Config := ⟨2, 2000000, [1000000, 2000000], 0, false, 0⟩

/-- Two keyframes that each hit a cut point of cfg3. -/
def pkts3 : List AVPacket := [keyPkt 1, keyPkt 2]

/-- One-second fixed intervals with wrap 2, no manifest. -/
def cfg4 : Config := ⟨2, 1000000, [], 0, false, 0⟩

/-- Same configuration without wrapping. -/
def cfg4z : Config := ⟨0, 1000000, [], 0, false, 0⟩

/-- Three keyframes that each trigger a cut under cfg4. -/
def pkts4 : List AVPacket := [keyPkt 1, keyPkt 2, keyPkt 3]

/-- Fixed-interval configuration with a manifest rotated every 2 segments,
as in cfg6 (the failing scenario for the trailer error). -/
def cfg7 : Config := ⟨0, 2000000, [], 0, true, 2⟩

/-- State while segment 2 is open: the counter is 2, a rotation boundary of
cfg7. -/
def s7 : SegState := ⟨2, 1, 2, 4, 1, [⟨0, 0, 2⟩], 2, 1⟩

/-- Video plus audio stream set. -/
def streamsVA : List AVStream := [vStream, aStream]

/-- A keyframe audio packet with a huge timestamp on stream 1. -/
def pktA : AVPacket := ⟨1, 999999999, 10, true⟩

/-- Invariant preservation along List.foldl. -/
theorem foldl_inv {α β : Type} (P : β → Prop) (f : β → α → β) (l : List α) (b : β)
    (hb : P b) (hf : ∀ s a, P s → P (f s a)) : P (l.foldl f b) := by
  induction l generalizing b with
  | nil => exact hb
  | cons a l ih => exact ih (f b a) (hf b a hb)

/-- segment_end does not change the counter. -/
theorem segment_end_number (cfg : Config) (s : SegState) (tr re : Int) :
    ((segment_end cfg s tr re).1).number = s.number := by
  unfold segment_end
  split_ifs <;> rfl

/-- segment_end does not change the started count. -/
theorem segment_end_started (cfg : Config) (s : SegState) (tr re : Int) :
    ((segment_end cfg s tr re).1).started = s.started := by
  unfold segment_end
  split_ifs <;> rfl

/-- segment_end does not change the current filename index. -/
theorem segment_end_curName (cfg : Config) (s : SegState) (tr re : Int) :
    ((segment_end cfg s tr re).1).curName = s.curName := by
  unfold segment_end
  split_ifs <;> rfl

/-- segment_end does not change the running end time. -/
theorem segment_end_end_time (cfg : Config) (s : SegState) (tr re : Int) :
    ((segment_end cfg s tr re).1).end_time = s.end_time := by
  unfold segment_end
  split_ifs <;> rfl

/-- Stepping a remainder: adding one then reducing agrees with reducing
then adding one and reducing again. -/
theorem emod_add_one (c W : Int) : (c % W + 1) % W = (c + 1) % W := by
  rw [Int.add_emod, Int.emod_emod_of_dvd c (dvd_refl W), ← Int.add_emod]

/-- The comparison against the microsecond time base is nonnegative exactly
when the packet time in seconds reaches the target time in seconds. -/
theorem av_compare_ts_nonneg_iff (ts_a : Int) (tb_a : AVRational) (ts_b : Int)
    (hd : 0 < tb_a.den) :
    (0 ≤ av_compare_ts ts_a tb_a ts_b AV_TIME_BASE_Q) ↔
      (ts_b : ℚ) / 1000000 ≤ (ts_a : ℚ) * tb_a.toRat := by
  have hq : (0 : ℚ) < (tb_a.den : ℚ) := by exact_mod_cast hd
  have hcmp : (0 ≤ av_compare_ts ts_a tb_a ts_b AV_TIME_BASE_Q) ↔
      ts_b * AV_TIME_BASE_Q.num * tb_a.den ≤ ts_a * tb_a.num * AV_TIME_BASE_Q.den := by
    unfold av_compare_ts
    split_ifs with h1 h2 <;> omega
  rw [hcmp]
  show ts_b * 1 * tb_a.den ≤ ts_a * tb_a.num * 1000000 ↔ _
  have hr : (ts_a : ℚ) * tb_a.toRat = ((ts_a * tb_a.num : Int) : ℚ) / ((tb_a.den : Int) : ℚ) := by
    unfold AVRational.toRat
    push_cast
    ring
  rw [hr, div_le_div_iff₀ (by norm_num) (by exact_mod_cast hd)]
  rw [mul_one ts_b]
  constructor
  · intro h
    exact_mod_cast h
  · intro h
    exact_mod_cast h

/-- C1: the decision engine cuts on a packet exactly when (a) no stream
carries video or the packet's stream is a video stream, (b) the packet's
presentation timestamp converted to the common (microsecond) time unit
reaches target minus tolerance, and (c) the packet is a keyframe; in
consequence, when a video stream is present no non-video packet ever
triggers a cut, whatever its timestamp. -/
theorem c1_cut_iff (cfg : Config) (s : SegState) (streams : List AVStream)
    (st : AVStream) (pkt : AVPacket)
    (hst : pktStream streams pkt = st)
    (hv : s.has_video = streams.countP (fun t => t.codec_type == CodecType.video))
    (hd : 0 < st.time_base.den) :
    ((cutTrigger cfg s st pkt = true ↔
      ((∀ t ∈ streams, t.codec_type ≠ CodecType.video) ∨ st.codec_type = CodecType.video)
        ∧ ((end_pts cfg s - cfg.delta : Int) : ℚ) / 1000000 ≤ (pkt.pts : ℚ) * st.time_base.toRat
        ∧ pkt.key = true)
    ∧ (0 < s.has_video → st.codec_type ≠ CodecType.video →
        cutTrigger cfg s st pkt = false)) := by
  have hz : streams.countP (fun t => t.codec_type == CodecType.video) = 0 ↔
      ∀ t ∈ streams, t.codec_type ≠ CodecType.video := by
    rw [List.countP_eq_zero]
    simp
  constructor
  · simp only [cutTrigger, Bool.and_eq_true, Bool.or_eq_true, bne_iff_ne, ne_eq,
      beq_iff_eq, decide_eq_true_eq]
    rw [av_compare_ts_nonneg_iff pkt.pts st.time_base (end_pts cfg s - cfg.delta) hd]
    rw [hv]
    constructor
    · rintro ⟨⟨⟨hnz, hvid⟩ | hzero, hts⟩, hkey⟩
      · exact ⟨Or.inr hvid, hts, hkey⟩
      · exact ⟨Or.inl (hz.mp hzero), hts, hkey⟩
    · rintro ⟨ha, hts, hkey⟩
      refine ⟨⟨?_, hts⟩, hkey⟩
      rcases ha with hnov | hvid
      · exact Or.inr (hz.mpr hnov)
      · by_cases hc : streams.countP (fun t => t.codec_type == CodecType.video) = 0
        · exact Or.inr hc
        · exact Or.inl ⟨hc, hvid⟩
  · intro hpos hnv
    have h1 : (st.codec_type == CodecType.video) = false := by
      simpa using hnv
    have h2 : (s.has_video == 0) = false := by
      simp only [beq_eq_false_iff_ne, ne_eq]
      omega
    simp [cutTrigger, h1, h2]

/-- Witness for C1: with a video stream present, a keyframe audio packet
with a huge timestamp does not trigger a cut. -/
theorem c1_witness : cutTrigger cfg6 (seg_write_header streamsVA) aStream pktA = false :=
  (c1_cut_iff cfg6 (seg_write_header streamsVA) streamsVA aStream pktA rfl rfl
    (by decide)).2 (by decide) (by decide)

/-- C2: the target cut point is cut_points at index number-1 while the
explicit list is configured and not exhausted, INT64_MAX (the int64 stand-in
for plus infinity) once the list is exhausted, and interval times number in
fixed-interval mode, where number is the counter value before the next
increment. -/
theorem c2_target (cfg : Config) (s : SegState) :
    ((cfg.times ≠ [] → 1 ≤ s.number → s.number ≤ (cfg.times.length : Int) →
      end_pts cfg s = cfg.times.getD (s.number - 1).toNat 0)
    ∧ (cfg.times ≠ [] → (cfg.times.length : Int) < s.number →
      end_pts cfg s = INT64_MAX)
    ∧ (cfg.times = [] → end_pts cfg s = cfg.time * s.number)) := by
  refine ⟨?_, ?_, ?_⟩
  · intro h1 _ h3
    unfold end_pts
    rw [if_pos h1, if_pos h3]
  · intro h1 h2
    unfold end_pts
    rw [if_pos h1, if_neg (by omega)]
  · intro h1
    unfold end_pts
    rw [if_neg (by simp [h1])]

/-- Witness for C2: with the two cut points of cfg3 the target is the first
entry at counter 1, INT64_MAX at counter 3, and in fixed-interval mode the
interval scaled by the counter. -/
theorem c2_witness :
    (end_pts cfg3 { seg_write_header [vStream] with number := 1 } =
      cfg3.times.getD ((1 : Int) - 1).toNat 0)
    ∧ (end_pts cfg3 { seg_write_header [vStream] with number := 3 } = INT64_MAX)
    ∧ (end_pts cfg6 { seg_write_header [vStream] with number := 2 } = cfg6.time * 2) :=
  ⟨(c2_target cfg3 { seg_write_header [vStream] with number := 1 }).1 (by decide)
      (by decide) (by decide),
    (c2_target cfg3 { seg_write_header [vStream] with number := 3 }).2.1 (by decide)
      (by decide),
    (c2_target cfg6 { seg_write_header [vStream] with number := 2 }).2.2 (by decide)⟩

/-- Relation between the counter, the filename index of the open segment and
the raw count of segments started, under wrap modulus W. -/
def counterInv (W : Int) (s : SegState) : Prop :=
  1 ≤ s.started ∧ s.number = ((s.started : Int) - 1) % W + 1
    ∧ s.curName = ((s.started : Int) - 1) % W

/-- The header establishes the counter relation. -/
theorem counterInv_header (streams : List AVStream) (W : Int) :
    counterInv W (seg_write_header streams) := by
  unfold counterInv seg_write_header
  norm_num

/-- Each packet preserves the counter relation when the wrap modulus is
positive. -/
theorem counterInv_step (cfg : Config) (streams : List AVStream) (W : Int)
    (hW : cfg.wrap = W) (hW0 : 0 < W) (s : SegState) (pkt : AVPacket)
    (h : counterInv W s) : counterInv W (seg_write_packet cfg streams s pkt) := by
  obtain ⟨h1, h2, h3⟩ := h
  have hne : cfg.wrap ≠ 0 := by omega
  have key : s.number % W = (s.started : Int) % W := by
    rw [h2, emod_add_one]
    norm_num
  have hcast : ∀ n : Nat, ((n + 1 : Nat) : Int) - 1 = (n : Int) := by
    intro n
    push_cast
    ring
  unfold seg_write_packet
  split_ifs with ht hp
  · refine ⟨?_, ?_, ?_⟩
    · show (segment_start cfg (segment_end cfg s 0 0).1).started ≥ 1
      simp only [segment_start, segment_end_started]
      omega
    · show (segment_start cfg (segment_end cfg s 0 0).1).number = _
      simp only [segment_start, segment_end_number, segment_end_started, hW]
      rw [key, hcast, if_pos (show W ≠ 0 by omega)]
    · show (segment_start cfg (segment_end cfg s 0 0).1).curName = _
      simp only [segment_start, segment_end_number, segment_end_started, hW]
      rw [key, hcast, if_pos (show W ≠ 0 by omega)]
  · exact ⟨h1, h2, h3⟩
  · exact ⟨h1, h2, h3⟩

/-- C3: with wrap modulus W and an explicit cut-point list at least W long,
once W segments have been cut (so W+1 segments have started) the target cut
point of the active segment is again the first list entry, and the filename
index of that segment has restarted at 0. -/
theorem c3_wrap_coupling (cfg : Config) (streams : List AVStream) (pkts : List AVPacket)
    (W : Int) (hW : cfg.wrap = W) (hW0 : 0 < W)
    (hL : W ≤ (cfg.times.length : Int))
    (hcut : ((runPackets cfg streams pkts).started : Int) = W + 1) :
    end_pts cfg (runPackets cfg streams pkts) = cfg.times.getD 0 0
    ∧ (runPackets cfg streams pkts).curName = 0 := by
  have hinv : counterInv W (runPackets cfg streams pkts) := by
    unfold runPackets
    exact foldl_inv (counterInv W) (seg_write_packet cfg streams) pkts
      (seg_write_header streams) (counterInv_header streams W)
      (fun s pkt hp => counterInv_step cfg streams W hW hW0 s pkt hp)
  obtain ⟨h1, h2, h3⟩ := hinv
  have hsub : ((runPackets cfg streams pkts).started : Int) - 1 = W := by omega
  have hnum : (runPackets cfg streams pkts).number = 1 := by
    rw [h2, hsub, Int.emod_self]
    norm_num
  have hname : (runPackets cfg streams pkts).curName = 0 := by
    rw [h3, hsub, Int.emod_self]
  refine ⟨?_, hname⟩
  have hne : cfg.times ≠ [] := by
    intro hnil
    rw [hnil] at hL
    simp at hL
    omega
  unfold end_pts
  rw [if_pos hne, hnum, if_pos (by omega)]
  norm_num

/-- Witness for C3: under cfg3 (wrap 2, cut points at 1s and 2s) two
keyframes cut twice; the third segment then targets the first cut point
again and its filename index is 0. -/
theorem c3_witness :
    end_pts cfg3 (runPackets cfg3 [vStream] pkts3) = cfg3.times.getD 0 0
    ∧ (runPackets cfg3 [vStream] pkts3).curName = 0 :=
  c3_wrap_coupling cfg3 [vStream] pkts3 2 rfl (by decide) (by decide) (by decide)

/-- Counterexample to C4: with wrap 2, after three cuts four segments have
started but the counter (wrapped at every segment start) is 2, so the
counter before the next segment opens is not the raw pre-wrap ordinal. -/
theorem c4_counterexample :
    ¬((runPackets cfg4 [vStream] pkts4).number =
      ((runPackets cfg4 [vStream] pkts4).started : Int)) := by
  decide

/-- C4 amended: when wrap_limit is 0 the counter always equals the number of
segments started so far, in particular immediately before each segment is
opened; with a positive wrap_limit the counter is reduced modulo the limit
at each segment start, so it is the ordinal modulo the limit instead. -/
theorem c4_counter_no_wrap (cfg : Config) (streams : List AVStream)
    (pkts : List AVPacket) (hw : cfg.wrap = 0) :
    (runPackets cfg streams pkts).number =
      ((runPackets cfg streams pkts).started : Int) := by
  unfold runPackets
  refine foldl_inv (fun s => s.number = (s.started : Int)) (seg_write_packet cfg streams)
    pkts (seg_write_header streams) (by simp [seg_write_header]) ?_
  · intro s pkt hp
    unfold seg_write_packet
    split_ifs with ht hpts
    · show (segment_start cfg (segment_end cfg s 0 0).1).number = _
      simp only [segment_start, segment_end_number, segment_end_started, hw]
      push_cast
      omega
    · exact hp
    · exact hp

/-- Witness for C4 amended: the same three-cut run without wrapping keeps
the counter equal to the started count. -/
theorem c4_witness :
    (runPackets cfg4z [vStream] pkts4).number =
      ((runPackets cfg4z [vStream] pkts4).started : Int) :=
  c4_counter_no_wrap cfg4z [vStream] pkts4 rfl

/-- On an all-parseable entry list whose values are non-decreasing (also
past the carried previous value) the loop succeeds and returns the values. -/
theorem parse_times_loop_ok : ∀ (ts : List Int) (prev : Option Int) (acc : List Int),
    nonDecr (prev.toList ++ ts) = true →
    parse_times_loop prev (ts.map some) acc = Except.ok (acc.reverse ++ ts) := by
  intro ts
  induction ts with
  | nil =>
    intro prev acc _
    cases prev <;> simp [parse_times_loop]
  | cons t rest ih =>
    intro prev acc h
    cases prev with
    | none =>
      show parse_times_loop (some t) (rest.map some) (t :: acc) = _
      rw [ih (some t) (t :: acc) (by simpa using h)]
      simp
    | some pv =>
      have h2 : pv ≤ t ∧ nonDecr (t :: rest) = true := by
        have := h
        unfold nonDecr at this
        simpa using this
      show (if pv > t then _ else parse_times_loop (some t) (rest.map some) (t :: acc)) = _
      rw [if_neg (by omega)]
      rw [ih (some t) (t :: acc) (by simpa using h2.2)]
      simp

/-- Whenever some entry fails to parse, the loop fails. -/
theorem parse_times_loop_err_none : ∀ (entries : List (Option Int)) (prev : Option Int)
    (acc : List Int), none ∈ entries →
    ∃ e, parse_times_loop prev entries acc = Except.error e := by
  intro entries
  induction entries with
  | nil =>
    intro prev acc h
    simp at h
  | cons a rest ih =>
    intro prev acc h
    cases a with
    | none =>
      refine ⟨TimesError.invalidSpec, ?_⟩
      cases prev <;> rfl
    | some t =>
      have hr : none ∈ rest := by simpa using h
      cases prev with
      | none => exact ih (some t) (t :: acc) hr
      | some pv =>
        by_cases hgt : pv > t
        · refine ⟨TimesError.notMonotone t pv, ?_⟩
          show (if pv > t then Except.error (TimesError.notMonotone t pv)
            else parse_times_loop (some t) rest (t :: acc)) = _
          rw [if_pos hgt]
        · obtain ⟨e, he⟩ := ih (some t) (t :: acc) hr
          refine ⟨e, ?_⟩
          show (if pv > t then Except.error (TimesError.notMonotone t pv)
            else parse_times_loop (some t) rest (t :: acc)) = _
          rw [if_neg hgt]
          exact he

/-- When all entries parse but the value sequence has an inversion, the loop
fails with a notMonotone error whose reported values are an adjacent
inverted pair of the sequence (extended with the carried previous value). -/
theorem parse_times_loop_err_inv : ∀ (ts : List Int) (prev : Option Int) (acc : List Int),
    nonDecr (prev.toList ++ ts) = false →
    ∃ pv cur, pv > cur ∧
      (pv, cur) ∈ (prev.toList ++ ts).zip (prev.toList ++ ts).tail ∧
      parse_times_loop prev (ts.map some) acc =
        Except.error (TimesError.notMonotone cur pv) := by
  intro ts
  induction ts with
  | nil =>
    intro prev acc h
    exfalso
    cases prev with
    | none => simp [nonDecr] at h
    | some pv => simp [nonDecr] at h
  | cons t rest ih =>
    intro ts acc h
    cases ts with
    | none =>
      have h2 : nonDecr ((some t).toList ++ rest) = false := by simpa using h
      obtain ⟨pv, cur, hgt, hmem, heq⟩ := ih (some t) (t :: acc) h2
      refine ⟨pv, cur, hgt, by simpa using hmem, ?_⟩
      show parse_times_loop (some t) (rest.map some) (t :: acc) = _
      exact heq
    | some pv0 =>
      by_cases hgt : pv0 > t
      · refine ⟨pv0, t, hgt, ?_, ?_⟩
        · simp
        · show (if pv0 > t then Except.error (TimesError.notMonotone t pv0)
            else parse_times_loop (some t) (rest.map some) (t :: acc)) = _
          rw [if_pos hgt]
      · have hle : pv0 ≤ t := by omega
        have h2 : nonDecr (t :: rest) = false := by
          have h3 := h
          unfold nonDecr at h3
          simpa [hle] using h3
        obtain ⟨pv, cur, hg, hmem, heq⟩ := ih (some t) (t :: acc) (by simpa using h2)
        refine ⟨pv, cur, hg, ?_, ?_⟩
        · simp only [Option.toList, List.cons_append, List.nil_append, List.tail_cons,
            List.zip_cons_cons] at hmem ⊢
          exact List.mem_cons_of_mem _ hmem
        · show (if pv0 > t then Except.error (TimesError.notMonotone t pv0)
            else parse_times_loop (some t) (rest.map some) (t :: acc)) = _
          rw [if_neg hgt]
          exact heq

/-- C5: the time-list validator accepts exactly the lists whose entries all
parse into a non-decreasing value sequence (returning those values), fails
whenever some entry does not parse, and on an all-parseable sequence with an
inversion fails with an error reporting an adjacent pair whose first value
strictly exceeds its successor. -/
theorem c5_parse_times :
    ((∀ ts : List Int, nonDecr ts = true → parse_times (ts.map some) = Except.ok ts)
    ∧ (∀ entries : List (Option Int), none ∈ entries →
        ∃ e, parse_times entries = Except.error e)
    ∧ (∀ ts : List Int, nonDecr ts = false →
        ∃ pv cur, pv > cur ∧ (pv, cur) ∈ ts.zip ts.tail ∧
          parse_times (ts.map some) = Except.error (TimesError.notMonotone cur pv))) := by
  refine ⟨?_, ?_, ?_⟩
  · intro ts h
    unfold parse_times
    rw [parse_times_loop_ok ts none [] (by simpa using h)]
    simp
  · intro entries h
    exact parse_times_loop_err_none entries none [] h
  · intro ts h
    obtain ⟨pv, cur, hg, hmem, heq⟩ :=
      parse_times_loop_err_inv ts none [] (by simpa using h)
    exact ⟨pv, cur, hg, by simpa using hmem, heq⟩

/-- Witness for C5: an ascending-with-repeat list parses to its values, a
list with an unparseable entry fails, and the inverted list 7,3 fails
reporting the pair. -/
theorem c5_witness :
    (parse_times [some 1, some 5, some 5] = Except.ok [1, 5, 5])
    ∧ (∃ e, parse_times [some 1, none] = Except.error e)
    ∧ (∃ pv cur, pv > cur ∧ (pv, cur) ∈ ([7, 3] : List Int).zip ([7, 3] : List Int).tail ∧
        parse_times ([7, 3].map some) = Except.error (TimesError.notMonotone cur pv)) :=
  ⟨c5_parse_times.1 [1, 5, 5] (by decide), c5_parse_times.2.1 [some 1, none] (by decide),
    c5_parse_times.2.2 [7, 3] (by decide)⟩

/-- C6: when a manifest is configured and the counter is a multiple of a
positive list_size, segment_end truncates the manifest before writing, so
the rotated file holds exactly the record that triggered the rotation; in
the concrete scenario with list_size 2 and five completed segments the
manifest holds exactly records 4 and 5. -/
theorem c6_rotation :
    ((∀ (cfg : Config) (s : SegState) (tr re : Int), cfg.list = true →
      cfg.list_size ≠ 0 → s.number % cfg.list_size = 0 → 0 ≤ re →
      ((segment_end cfg s tr re).1).manifest = [⟨s.curName, s.start_time, s.end_time⟩])
    ∧ (run cfg6 [vStream] pkts6).manifest = [⟨3, 6, 8⟩, ⟨4, 8, 10⟩]
    ∧ (run cfg6 [vStream] pkts6).ended = 5) := by
  have hrun : run cfg6 [vStream] pkts6 =
      ⟨5, 1, 8, 10, 4, [⟨3, 6, 8⟩, ⟨4, 8, 10⟩], 5, 5⟩ := by
    norm_num [run, runPackets, seg_write_trailer, seg_write_header, seg_write_packet,
      segment_start, segment_end, cutTrigger, end_pts, pktStream, av_compare_ts,
      AVRational.toRat, AV_TIME_BASE_Q, AV_NOPTS_VALUE, cfg6, pkts6, vStream, keyPkt,
      plainPkt, List.foldl]
  refine ⟨?_, by rw [hrun], by rw [hrun]⟩
  intro cfg s tr re hl hsz hmod hre
  unfold segment_end
  rw [if_pos hl, if_pos ⟨hsz, hmod⟩, if_neg (by omega)]

/-- Witness for C6: rotating at counter 2 with the cfg7 state leaves the
manifest holding only the record of the segment just finished. -/
theorem c6_witness :
    ((segment_end cfg7 s7 0 0).1).manifest = [⟨s7.curName, s7.start_time, s7.end_time⟩] :=
  c6_rotation.1 cfg7 s7 0 0 rfl (by decide) (by decide) (by decide)

/-- C7 evaluation: at a rotation boundary a failing trailer (code -5) is
swallowed because the successful list-file reopen overwrites the return
value, while the cleanup and the manifest record still happen; without a
rotation on the same end, the trailer error is returned as the claim says. -/
theorem c7_trailer_error_lost :
    ((segment_end cfg7 s7 (-5) 0).2 = 0
    ∧ ((segment_end cfg7 s7 (-5) 0).1).manifest = [⟨1, 2, 4⟩]
    ∧ ((segment_end cfg7 s7 (-5) 0).1).ended = s7.ended + 1
    ∧ (segment_end cfg7 { s7 with number := 3 } (-5) 0).2 = -5) := by
  decide

/-- C8: a packet that does not trigger a cut and carries a valid timestamp
raises the running end time to the maximum with its pts plus duration in
seconds, leaves the start time alone, and is written into the current
segment; a triggering packet sets the new segment's start time from its own
timestamp and is written into the new segment. -/
theorem c8_packet_effect (cfg : Config) (streams : List AVStream) (s : SegState)
    (pkt : AVPacket) (st : AVStream) (hst : pktStream streams pkt = st) :
    ((cutTrigger cfg s st pkt = false → pkt.pts ≠ AV_NOPTS_VALUE →
      (seg_write_packet cfg streams s pkt).end_time =
        max s.end_time (((pkt.pts + pkt.duration : Int) : ℚ) * st.time_base.toRat)
      ∧ (seg_write_packet cfg streams s pkt).start_time = s.start_time
      ∧ writeTarget cfg streams s pkt = s.started)
    ∧ (cutTrigger cfg s st pkt = true →
      (seg_write_packet cfg streams s pkt).start_time = (pkt.pts : ℚ) * st.time_base.toRat
      ∧ writeTarget cfg streams s pkt = s.started + 1)) := by
  subst hst
  constructor
  · intro h1 h2
    have hres : seg_write_packet cfg streams s pkt =
        { s with end_time := max s.end_time (((pkt.pts + pkt.duration : Int) : ℚ) * (pktStream streams pkt).time_base.toRat) } := by
      unfold seg_write_packet
      rw [h1]
      simp only [Bool.false_eq_true, if_false]
      rw [if_pos h2]
    rw [writeTarget, hres]
    exact ⟨rfl, rfl, rfl⟩
  · intro h1
    have hres : seg_write_packet cfg streams s pkt =
        { segment_start cfg (segment_end cfg s 0 0).1 with
            start_time := (pkt.pts : ℚ) * (pktStream streams pkt).time_base.toRat } := by
      unfold seg_write_packet
      rw [h1]
      simp only [if_true]
    rw [writeTarget, hres]
    refine ⟨rfl, ?_⟩
    show (segment_start cfg (segment_end cfg s 0 0).1).started = s.started + 1
    simp only [segment_start, segment_end_started]

/-- Witness for C8: after the header, the non-key packet at 1s extends the
end time of (and is written into) segment 1, while the keyframe at 2s
starts segment 2 and stamps its start time. -/
theorem c8_witness :
    ((seg_write_packet cfg6 [vStream] (seg_write_header [vStream]) (plainPkt 1)).end_time =
      max (seg_write_header [vStream]).end_time
        ((((plainPkt 1).pts + (plainPkt 1).duration : Int) : ℚ) * vStream.time_base.toRat)
    ∧ (seg_write_packet cfg6 [vStream] (seg_write_header [vStream]) (plainPkt 1)).start_time =
      (seg_write_header [vStream]).start_time
    ∧ writeTarget cfg6 [vStream] (seg_write_header [vStream]) (plainPkt 1) =
      (seg_write_header [vStream]).started
    ∧ (seg_write_packet cfg6 [vStream] (seg_write_header [vStream]) (keyPkt 2)).start_time =
      ((keyPkt 2).pts : ℚ) * vStream.time_base.toRat
    ∧ writeTarget cfg6 [vStream] (seg_write_header [vStream]) (keyPkt 2) =
      (seg_write_header [vStream]).started + 1) := by
  obtain ⟨ha, hb, hc⟩ :=
    (c8_packet_effect cfg6 [vStream] (seg_write_header [vStream]) (plainPkt 1) vStream
      rfl).1 (by decide) (by decide)
  obtain ⟨hd, he⟩ :=
    (c8_packet_effect cfg6 [vStream] (seg_write_header [vStream]) (keyPkt 2) vStream
      rfl).2 (by decide)
  exact ⟨ha, hb, hc, hd, he⟩

/-- C9: finalizing right after initialization, with no packet ever
delivered, still completes exactly one segment and, when a manifest is
configured, writes exactly one record whose start and end times are both
zero. -/
theorem c9_empty_run (cfg : Config) (streams : List AVStream) (hl : cfg.list = true) :
    (run cfg streams []).ended = 1 ∧ (run cfg streams []).manifest = [⟨0, 0, 0⟩] := by
  unfold run runPackets seg_write_trailer
  rw [List.foldl_nil]
  unfold segment_end seg_write_header
  rw [if_pos hl]
  split_ifs with h1 h2 <;> simp_all

/-- Witness for C9: the cfg6 run with no packets ends one segment and
records one all-zero manifest line. -/
theorem c9_witness :
    (run cfg6 [vStream] []).ended = 1 ∧ (run cfg6 [vStream] []).manifest = [⟨0, 0, 0⟩] :=
  c9_empty_run cfg6 [vStream] rfl

/-- C10: a cut leaves the running end time untouched, so the new segment
inherits the maximum accumulated so far and the cutting packet itself never
contributes to it; a packet that neither cuts nor carries a valid timestamp
changes nothing at all. -/
theorem c10_end_time_inherited (cfg : Config) (streams : List AVStream) (s : SegState)
    (pkt : AVPacket) (st : AVStream) (hst : pktStream streams pkt = st) :
    ((cutTrigger cfg s st pkt = true →
      (seg_write_packet cfg streams s pkt).end_time = s.end_time)
    ∧ (cutTrigger cfg s st pkt = false → pkt.pts = AV_NOPTS_VALUE →
      seg_write_packet cfg streams s pkt = s)) := by
  subst hst
  constructor
  · intro h1
    unfold seg_write_packet
    rw [h1]
    simp only [if_true]
    show (segment_start cfg (segment_end cfg s 0 0).1).end_time = s.end_time
    simp only [segment_start, segment_end_end_time]
  · intro h1 h2
    unfold seg_write_packet
    rw [h1]
    simp only [Bool.false_eq_true, if_false]
    rw [if_neg (by simpa using h2)]

/-- Witness for C10: the keyframe at 2s cuts but leaves the end time as the
previous packet set it, and a timestampless non-key packet is a no-op. -/
theorem c10_witness :
    ((seg_write_packet cfg6 [vStream]
        (seg_write_packet cfg6 [vStream] (seg_write_header [vStream]) (plainPkt 1))
        (keyPkt 2)).end_time =
      (seg_write_packet cfg6 [vStream] (seg_write_header [vStream]) (plainPkt 1)).end_time
    ∧ seg_write_packet cfg6 [vStream] (seg_write_header [vStream])
        ⟨0, AV_NOPTS_VALUE, 0, false⟩ = seg_write_header [vStream]) := by
  constructor
  · exact (c10_end_time_inherited cfg6 [vStream]
      (seg_write_packet cfg6 [vStream] (seg_write_header [vStream]) (plainPkt 1))
      (keyPkt 2) vStream rfl).1 (by decide)
  · exact (c10_end_time_inherited cfg6 [vStream] (seg_write_header [vStream])
      ⟨0, AV_NOPTS_VALUE, 0, false⟩ vStream rfl).2 (by decide) (by decide)

end Seg
